import Mathlib

/-!
Verification development for `src/tools/migration_monitor_gui.py`, the
V1 -> V2 migration monitor. The Python source is shallowly embedded below:
pure helpers become Lean functions, the stateful `App` methods become
functions on an explicit `AppState`, and the background worker loop becomes
a small step machine. Real-number arithmetic of the source (Python floats)
is modelled with `ℚ`; timestamps are rationals, counters are naturals.
-/

namespace MigMonitor

/-- Embeds `format_duration` (migration_monitor_gui.py, lines 20-29):
`sec = max(0, int(seconds))`, then split into days / hours / minutes and
render. Python's `int()` truncates toward zero; after the `max(0, ...)`
clamp this coincides with the floor used here (every negative input maps
to `0` either way). -/
def format_duration (seconds : ℚ) : String :=
  let sec : ℕ := (max 0 ⌊seconds⌋).toNat
  let days := sec / 86400
  let hours := (sec % 86400) / 3600
  let minutes := (sec % 3600) / 60
  if days > 0 then
    Nat.repr days ++ "d " ++ Nat.repr hours ++ "h " ++ Nat.repr minutes ++ "m"
  else if hours > 0 then
    Nat.repr hours ++ "h " ++ Nat.repr minutes ++ "m"
  else
    Nat.repr minutes ++ "m"

/-- Rendering of a whole number of minutes as days/hours/minutes, written
from the amended wording of claim C4: minutes always shown; hours also
shown when hours or days are positive; days also shown when days are
positive (zero-valued inner components included); never sub-minute
precision. Used to state the refinement theorem for C4. -/
def renderDHM (totalMinutes : ℕ) : String :=
  let days := totalMinutes / 1440
  let hours := (totalMinutes % 1440) / 60
  let minutes := totalMinutes % 60
  if days > 0 then
    Nat.repr days ++ "d " ++ Nat.repr hours ++ "h " ++ Nat.repr minutes ++ "m"
  else if hours > 0 then
    Nat.repr hours ++ "h " ++ Nat.repr minutes ++ "m"
  else
    Nat.repr minutes ++ "m"

/-- Helper for `format_int`: walking the reversed decimal digits, insert a
separator after every third digit (the effect of Python's `f"{n:,}"`
followed by `.replace(",", " ")`). `k` counts digits left in the current
group. -/
def insertSep : List Char → ℕ → List Char
  | [], _ => []
  | c :: cs, 0 => ' ' :: c :: insertSep cs 2
  | c :: cs, Nat.succ k => c :: insertSep cs k

/-- Embeds `format_int` (lines 16-17): clamp to `≥ 0`, render in decimal
with space-separated thousands groups. -/
def format_int (value : ℤ) : String :=
  let digits := (Nat.repr (max 0 value).toNat).toList
  String.mk (insertSep digits.reverse 3).reverse

/-- Embeds the two-decimal formatting Python performs with `f"{x:.2f}"`
(used for the progress and rate labels). Rounding is half-up on the
rational; Python rounds the underlying binary float half-to-even, which
agrees except on exact half-way decimal values that a binary float cannot
represent anyway. -/
def fmt2 (q : ℚ) : String :=
  let c : ℤ := ⌊q * 100 + 1 / 2⌋
  let n := c.natAbs
  let sign := if c < 0 then "-" else ""
  let frac := n % 100
  sign ++ Nat.repr (n / 100) ++ "." ++
    (if frac < 10 then "0" ++ Nat.repr frac else Nat.repr frac)

/-- Embeds the progress computation of `fetch_stats` (lines 54-55):
`total = v1_ready + v2_ready; progress = 100.0 if total == 0 else
(v2_ready / total) * 100.0`. -/
def computeProgress (v1_ready v2_ready : ℕ) : ℚ :=
  let total := v1_ready + v2_ready
  if total = 0 then 100 else ((v2_ready : ℚ) / (total : ℚ)) * 100

/-- One retained history entry: the dict `{"ts": ..., "v1": ...}` appended
by `_apply_stats` (line 233). -/
structure HistEntry where
  ts : ℚ
  v1 : ℕ
  deriving DecidableEq

/-- Embeds the rate computation of `_apply_stats` (lines 237-244):
`rate_per_hour = 0.0`; if at least two entries remain, take the oldest
(`history[0]`) and newest (`history[-1]`), `dv1 = oldest.v1 - newest.v1`,
`dt = newest.ts - oldest.ts`, and when both are positive set
`rate_per_hour = dv1 * 3600.0 / dt`. The defaults fed to `headD` and
`getLastD` are never read when the length guard holds. -/
def twoPointRate (hist : List HistEntry) : ℚ :=
  if 2 ≤ hist.length then
    let oldest := hist.headD ⟨0, 0⟩
    let newest := hist.getLastD ⟨0, 0⟩
    let dv1 : ℤ := (oldest.v1 : ℤ) - (newest.v1 : ℤ)
    let dt : ℚ := newest.ts - oldest.ts
    if 0 < dv1 ∧ 0 < dt then ((dv1 : ℚ) * 3600) / dt else 0
  else 0

/-- Embeds the ETA computation of `_apply_stats` (lines 246-249):
`eta_text = "n/a"`; when `rate_per_hour > 0`,
`eta_seconds = v1_ready / rate_per_hour * 3600.0` and the text becomes
`format_duration(eta_seconds)`. The string `"n/a"` is the code's rendering
of the spec's abstract "unknown" ETA. -/
def etaText (v1_now : ℕ) (rate : ℚ) : String :=
  if 0 < rate then format_duration ((v1_now : ℚ) / rate * 3600) else "n/a"

/-- The stat snapshot dict assembled by `fetch_stats` (lines 57-65). -/
structure Stats where
  ts : ℚ
  v1_ready : ℕ
  v2_ready : ℕ
  queued : ℕ
  processing : ℕ
  errors : ℕ
  progress : ℚ
  deriving DecidableEq

/-- The mutable state of `App` relevant to the monitor logic: the Tk
`StringVar`/`DoubleVar` display variables (lines 78-92), the `running`
flag, the stop event, and the sample history (lines 94-98). The worker
thread handle, Tk widgets, and the event queue are modelled separately. -/
structure AppState where
  uri_var : String
  db_var : String
  interval_var : String
  status_var : String
  v1_var : String
  v2_var : String
  progress_var : String
  queued_var : String
  processing_var : String
  errors_var : String
  rate_var : String
  eta_var : String
  updated_var : String
  progress_value : ℚ
  running : Bool
  stopEventSet : Bool
  history : List HistEntry
  deriving DecidableEq

/-- The state built by `App.__init__` (lines 72-98): every display label
starts as `"-"`, status `"Stopped"`, not running, empty history. The URI
and DB defaults come from the environment; they are parameters here. -/
def initState (uri db : String) : AppState :=
  { uri_var := uri
    db_var := db
    interval_var := "10"
    status_var := "Stopped"
    v1_var := "-"
    v2_var := "-"
    progress_var := "-"
    queued_var := "-"
    processing_var := "-"
    errors_var := "-"
    rate_var := "-"
    eta_var := "-"
    updated_var := "-"
    progress_value := 0
    running := false
    stopEventSet := false
    history := [] }

/-- Embeds `App._apply_stats` (lines 232-261). `now` is the value of
`time.time()` at line 234 and `nowStr` the formatted `datetime.now()` of
line 258; both are inputs of the model since they read the ambient clock.
Steps, in source order: append `(ts, v1)` to the history; evict entries
with `ts < now - 6*3600` (the filter keeps `ts >= cutoff`); compute
`rate_per_hour` from the oldest/newest retained pair; compute `eta_text`;
then set every display variable and force the status to `"Running"`. -/
def applyStats (s : AppState) (stats : Stats) (now : ℚ) (nowStr : String) :
    AppState :=
  let appended := s.history ++ [⟨stats.ts, stats.v1_ready⟩]
  let cutoff := now - 6 * 3600
  let retained := appended.filter (fun x => cutoff ≤ x.ts)
  let rate_per_hour := twoPointRate retained
  { s with
    history := retained
    v1_var := format_int stats.v1_ready
    v2_var := format_int stats.v2_ready
    progress_var := fmt2 stats.progress ++ "%"
    queued_var := format_int stats.queued
    processing_var := format_int stats.processing
    errors_var := format_int stats.errors
    rate_var :=
      if 0 < rate_per_hour then fmt2 rate_per_hour ++ " v1/hour" else "n/a"
    eta_var := etaText stats.v1_ready rate_per_hour
    updated_var := nowStr
    progress_value := max 0 (min 100 stats.progress)
    status_var := "Running" }

/-- An event on the worker -> UI queue (lines 210-213): either a stats
snapshot or an error message string. -/
inductive Event where
  | stats (payload : Stats)
  | error (payload : String)
  deriving DecidableEq

/-- Embeds the event dispatch of `App._pump_queue` (lines 218-228): an
`"error"` event only rewrites the status label to `"Error: <payload>"`;
a `"stats"` event is handed to `_apply_stats`. -/
def pumpEvent (s : AppState) (e : Event) (now : ℚ) (nowStr : String) :
    AppState :=
  match e with
  | .error msg => { s with status_var := "Error: " ++ msg }
  | .stats st => applyStats s st now nowStr

/-- Validity of a decimal digit run as Python's `int()` accepts it after
sign stripping: non-empty, first and last characters are digits, every
character is a digit or an underscore, and no two underscores are
adjacent (Python allows single underscores between digits only). -/
def digitRunOk (cs : List Char) : Bool :=
  (match cs.head? with | some c => c.isDigit | none => false) &&
  (match cs.getLast? with | some c => c.isDigit | none => false) &&
  cs.all (fun c => c.isDigit || c == '_') &&
  ((cs.zip cs.tail).all fun p => !(p.1 == '_' && p.2 == '_'))

/-- Numeric value of a digit run, skipping underscores. -/
def digitsVal (cs : List Char) : ℕ :=
  cs.foldl (fun acc c => if c.isDigit then acc * 10 + (c.toNat - 48) else acc) 0

/-- Surrounding-whitespace removal on a character list: the effect of
Python's `str.strip()` with no argument. -/
def stripWs (cs : List Char) : List Char :=
  ((cs.dropWhile Char.isWhitespace).reverse.dropWhile Char.isWhitespace).reverse

/-- Models Python's `int(s)` on a stripped string (line 177 strips before
calling `int`, and `int` itself ignores surrounding whitespace): an
optional sign followed by a valid digit run, else a `ValueError`
(`none`). Exotic inputs Python also accepts (non-ASCII digits) are out of
scope; the monitor's interval field is ASCII text. -/
def pythonInt (s : String) : Option ℤ :=
  match stripWs s.toList with
  | '+' :: rest => if digitRunOk rest then some (digitsVal rest : ℤ) else none
  | '-' :: rest => if digitRunOk rest then some (-(digitsVal rest : ℤ)) else none
  | cs => if digitRunOk cs then some (digitsVal cs : ℤ) else none

/-- The error dialogs `App.start` can show before a session begins
(lines 162-181). -/
inductive ConfigError where
  | missingUri
  | missingDb
  | badInterval
  deriving DecidableEq

/-- Result of a `start()` call: the missing-pymongo dialog (lines
162-164), the silent no-op when already running (lines 165-166), a
config-error dialog leaving the state untouched, or a started session
carrying the new state and the interval handed to the worker thread. -/
inductive StartResult where
  | missingDependency
  | noop
  | configError (e : ConfigError) (s : AppState)
  | started (s : AppState) (interval : ℤ)
  deriving DecidableEq

/-- Embeds `App.start` (lines 161-195), checks in source order: pymongo
availability, the `running` no-op guard, non-empty URI and DB, then
`interval = int(interval_var.strip())` which must parse and be positive.
Only after all checks pass does it clear the stop event, set `running`,
set status `"Running"`, clear the history, and spawn the worker with the
parsed interval. On any config error nothing is mutated: the state
returned with the error is the input state. -/
def start (mongoAvailable : Bool) (s : AppState) : StartResult :=
  if ¬ mongoAvailable then .missingDependency
  else if s.running then .noop
  else
    let uri := s.uri_var.trim
    let db := s.db_var.trim
    if uri = "" then .configError .missingUri s
    else if db = "" then .configError .missingDb s
    else
      match pythonInt s.interval_var with
      | none => .configError .badInterval s
      | some interval =>
        if interval ≤ 0 then .configError .badInterval s
        else
          .started
            { s with
              stopEventSet := false
              running := true
              status_var := "Running"
              history := [] }
            interval

/-- Embeds `App.stop` (lines 197-204): a no-op when not running;
otherwise set the stop event, clear `running`, and show `"Stopped"`. -/
def stop (s : AppState) : AppState :=
  if ¬ s.running then s
  else { s with stopEventSet := true, running := false, status_var := "Stopped" }

/-- The per-poll event the worker enqueues (lines 208-213): the `try`
puts a stats event, the `except` puts the error message. -/
def eventOf : Except String Stats → Event
  | .ok st => .stats st
  | .error msg => .error msg

/-- The first `n` events enqueued by `App._worker_loop` (lines 206-216)
when the stop event is never set, given the outcome of each probe call:
one event per poll, in poll order, with the control flow independent of
whether a poll succeeded or raised (both arms of the `try`/`except` fall
through to the same inter-poll wait). -/
def workerEvents (probe : ℕ → Except String Stats) : ℕ → List Event
  | 0 => []
  | n + 1 => workerEvents probe n ++ [eventOf (probe n)]

/-- Control positions of `App._worker_loop` (lines 206-216) between
atomic actions: `loopCheck` is the `while not stop_event.is_set()` test;
`wait k` is the inter-poll `for` loop with `k` sleep iterations left,
about to run `if stop_event.is_set(): break`; `done` is loop exit. -/
inductive Phase where
  | loopCheck
  | wait (k : ℕ)
  | done
  deriving DecidableEq

/-- One transition of the worker loop: the phase reached, whether a
0.1-second sleep quantum elapsed, and whether a probe ran. -/
structure WStep where
  next : Phase
  slept : Bool
  probed : Bool
  deriving DecidableEq

/-- Small-step semantics of `App._worker_loop` (lines 206-216). From
`loopCheck`: exit if the stop event is set, else run the probe and
enqueue (atomic here) and enter the wait loop with `interval * 10`
iterations. From `wait (k+1)`: break to the `while` test if the stop
event is set, else sleep one 0.1-second quantum. From `wait 0`: the
`for` loop is exhausted, return to the `while` test. `done` is
absorbing. -/
def workerStep (interval : ℕ) (stopSet : Bool) : Phase → WStep
  | .loopCheck =>
    if stopSet then ⟨.done, false, false⟩
    else ⟨.wait (interval * 10), false, true⟩
  | .wait 0 => ⟨.loopCheck, false, false⟩
  | .wait (k + 1) =>
    if stopSet then ⟨.loopCheck, false, false⟩ else ⟨.wait k, true, false⟩
  | .done => ⟨.done, false, false⟩

/-- `n` iterations of `workerStep` with a fixed stop-event value. -/
def stepN (interval : ℕ) (stopSet : Bool) : ℕ → Phase → Phase
  | 0, p => p
  | n + 1, p => stepN interval stopSet n (workerStep interval stopSet p).next

/-- Helper: the rate formula in the non-degenerate case — at least two
entries, work strictly decreased, time strictly advanced. -/
lemma twoPointRate_eq_of (hist : List HistEntry) (h2 : 2 ≤ hist.length)
    (hw : (hist.getLastD ⟨0, 0⟩).v1 < (hist.headD ⟨0, 0⟩).v1)
    (ht : (hist.headD ⟨0, 0⟩).ts < (hist.getLastD ⟨0, 0⟩).ts) :
    twoPointRate hist =
      (((hist.headD ⟨0, 0⟩).v1 : ℚ) - ((hist.getLastD ⟨0, 0⟩).v1 : ℚ)) * 3600 /
        ((hist.getLastD ⟨0, 0⟩).ts - (hist.headD ⟨0, 0⟩).ts) := by
  have hdv : (0 : ℤ) <
      ((hist.headD ⟨0, 0⟩).v1 : ℤ) - ((hist.getLastD ⟨0, 0⟩).v1 : ℤ) := by
    have : ((hist.getLastD ⟨0, 0⟩).v1 : ℤ) < ((hist.headD ⟨0, 0⟩).v1 : ℤ) := by
      exact_mod_cast hw
    omega
  have hdt : (0 : ℚ) < (hist.getLastD ⟨0, 0⟩).ts - (hist.headD ⟨0, 0⟩).ts :=
    sub_pos.mpr ht
  simp only [twoPointRate]
  rw [if_pos h2, if_pos ⟨hdv, hdt⟩]
  push_cast
  ring

/-- Helper: the rate is positive in the non-degenerate case. -/
lemma twoPointRate_pos_of (hist : List HistEntry) (h2 : 2 ≤ hist.length)
    (hw : (hist.getLastD ⟨0, 0⟩).v1 < (hist.headD ⟨0, 0⟩).v1)
    (ht : (hist.headD ⟨0, 0⟩).ts < (hist.getLastD ⟨0, 0⟩).ts) :
    0 < twoPointRate hist := by
  rw [twoPointRate_eq_of hist h2 hw ht]
  have hnum : (0 : ℚ) <
      ((hist.headD ⟨0, 0⟩).v1 : ℚ) - ((hist.getLastD ⟨0, 0⟩).v1 : ℚ) := by
    have : ((hist.getLastD ⟨0, 0⟩).v1 : ℚ) < ((hist.headD ⟨0, 0⟩).v1 : ℚ) := by
      exact_mod_cast hw
    linarith
  exact div_pos (by linarith) (sub_pos.mpr ht)

/-- Helper: the rate is never negative, on any history whatsoever. -/
lemma twoPointRate_nonneg (hist : List HistEntry) : 0 ≤ twoPointRate hist := by
  simp only [twoPointRate]
  split_ifs with h1 h2
  · obtain ⟨hdv, hdt⟩ := h2
    have hnum := (@Int.cast_pos ℚ _ _).mpr hdv
    exact le_of_lt (div_pos (by linarith) hdt)
  · exact le_refl 0
  · exact le_refl 0

/-- Helper: the rate is `0` in every degenerate case — fewer than two
entries, work not strictly decreased, or time not strictly advanced. -/
lemma twoPointRate_eq_zero_of (hist : List HistEntry)
    (h : hist.length < 2 ∨
      (hist.headD ⟨0, 0⟩).v1 ≤ (hist.getLastD ⟨0, 0⟩).v1 ∨
      (hist.getLastD ⟨0, 0⟩).ts ≤ (hist.headD ⟨0, 0⟩).ts) :
    twoPointRate hist = 0 := by
  simp only [twoPointRate]
  split_ifs with h1 h2
  · exfalso
    obtain ⟨hdv, hdt⟩ := h2
    rcases h with hlen | hv | hts
    · omega
    · have : ((hist.headD ⟨0, 0⟩).v1 : ℤ) ≤ ((hist.getLastD ⟨0, 0⟩).v1 : ℤ) := by
        exact_mod_cast hv
      omega
    · linarith [sub_pos.mp hdt]
  · rfl
  · rfl

/-- Claim C1, counterexample: the claim asserts `progress_percent = 100`
iff both counts are `0`, but `fetch_stats` computes `100` already when
`v1_remaining = 0` and `v2_done = 1` (all work migrated): the second
count is nonzero. -/
theorem C1_progress_iff_counterexample :
    computeProgress 0 1 = 100 ∧ ¬ ((0 : ℕ) = 0 ∧ (1 : ℕ) = 0) := by
  constructor
  · norm_num [computeProgress]
  · simp

/-- Claim C1 as amended: for all non-negative counts, `progress_percent`
is in `[0, 100]`; it is `100` when `v1_remaining + v2_done = 0` and
`v2_done / (v1_remaining + v2_done) * 100` otherwise; and it equals `100`
iff `v1_remaining = 0` (not iff both counts are `0`). -/
theorem C1_progress_bounds (v1 v2 : ℕ) :
    0 ≤ computeProgress v1 v2 ∧ computeProgress v1 v2 ≤ 100 ∧
    (v1 + v2 = 0 → computeProgress v1 v2 = 100) ∧
    (v1 + v2 ≠ 0 →
      computeProgress v1 v2 = (v2 : ℚ) / ((v1 : ℚ) + (v2 : ℚ)) * 100) ∧
    (computeProgress v1 v2 = 100 ↔ v1 = 0) := by
  simp only [computeProgress]
  by_cases h : v1 + v2 = 0
  · rw [if_pos h]
    have hv1 : v1 = 0 := by omega
    refine ⟨by norm_num, by norm_num, fun _ => rfl, fun hc => absurd h hc, ?_⟩
    simp [hv1]
  · rw [if_neg h]
    have hposn : 0 < v1 + v2 := Nat.pos_of_ne_zero h
    have hpos : (0 : ℚ) < (v1 : ℚ) + (v2 : ℚ) := by exact_mod_cast hposn
    have hcast : ((v1 + v2 : ℕ) : ℚ) = (v1 : ℚ) + (v2 : ℚ) := by push_cast; ring
    rw [hcast]
    have hle : (v2 : ℚ) ≤ (v1 : ℚ) + (v2 : ℚ) := by
      have : (0 : ℚ) ≤ (v1 : ℚ) := Nat.cast_nonneg v1
      linarith
    have hfrac : (v2 : ℚ) / ((v1 : ℚ) + (v2 : ℚ)) ≤ 1 :=
      div_le_one_of_le₀ hle (le_of_lt hpos)
    refine ⟨by positivity, by linarith, fun hc => absurd hc h, fun _ => rfl, ?_⟩
    constructor
    · intro he
      have hv : (v2 : ℚ) * 100 = ((v1 : ℚ) + (v2 : ℚ)) * 100 := by
        field_simp at he
        linarith
      have hv1 : (v1 : ℚ) = 0 := by linarith
      exact_mod_cast hv1
    · intro hv1
      subst hv1
      have hv2 : (v2 : ℚ) ≠ 0 := by
        have : v2 ≠ 0 := by omega
        exact_mod_cast this
      rw [Nat.cast_zero, zero_add, div_self hv2, one_mul]

/-- Claim C1 amended, witness: at `v1 = 2, v2 = 3` the defining formula
applies and yields `3 / (2 + 3) * 100`. -/
theorem C1_progress_bounds_witness :
    computeProgress 2 3 = (3 : ℚ) / ((2 : ℚ) + (3 : ℚ)) * 100 :=
  (C1_progress_bounds 2 3).2.2.2.1 (by norm_num)

/-- Claim C4, counterexample: the claim says only the largest two
non-zero units are shown, but at `187500` seconds (2 days, 4 hours,
5 minutes) `format_duration` renders all three units. -/
theorem C4_three_units_counterexample :
    format_duration 187500 = "2d 4h 5m" ∧ format_duration 187500 ≠ "2d 4h" := by
  constructor
  · decide
  · decide

/-- Claim C4 as amended: `format_duration` renders the clamped duration
at whole-minute granularity as days/hours/minutes — "Dd Hh Mm" when days
are positive (three units, zero-valued inner components included),
"Hh Mm" when only hours are positive, else "Mm" — never sub-minute
precision: the output is exactly `renderDHM` of the total whole minutes,
so any two durations with the same whole-minute count render alike. -/
theorem C4_minute_granularity (s : ℚ) :
    format_duration s = renderDHM ((max 0 ⌊s⌋).toNat / 60) := by
  simp only [format_duration, renderDHM]
  have h1 : (max 0 ⌊s⌋).toNat / 60 / 1440 = (max 0 ⌊s⌋).toNat / 86400 := by
    omega
  have h2 : (max 0 ⌊s⌋).toNat / 60 % 1440 / 60 =
      (max 0 ⌊s⌋).toNat % 86400 / 3600 := by
    omega
  have h3 : (max 0 ⌊s⌋).toNat / 60 % 60 = (max 0 ⌊s⌋).toNat % 3600 / 60 := by
    omega
  rw [h1, h2, h3]

/-- Claim C2: with at least two retained entries whose oldest/newest pair
has strictly positive work and time deltas, the estimator computes
`throughput_per_hour = delta_work * 3600 / delta_time` and the ETA as
`format_duration (v1_remaining_now / throughput_per_hour * 3600)`; in
particular the history `[(t0, 100), (t0 + 3600, 90)]` gives throughput
`10` per hour and, with `v1_remaining_now = 90`, the ETA `"9h 0m"`. -/
theorem C2_throughput_and_eta (t0 : ℚ) (hist : List HistEntry) (v1now : ℕ)
    (h2 : 2 ≤ hist.length)
    (hw : (hist.getLastD ⟨0, 0⟩).v1 < (hist.headD ⟨0, 0⟩).v1)
    (ht : (hist.headD ⟨0, 0⟩).ts < (hist.getLastD ⟨0, 0⟩).ts) :
    twoPointRate hist =
      (((hist.headD ⟨0, 0⟩).v1 : ℚ) - ((hist.getLastD ⟨0, 0⟩).v1 : ℚ)) * 3600 /
        ((hist.getLastD ⟨0, 0⟩).ts - (hist.headD ⟨0, 0⟩).ts) ∧
    etaText v1now (twoPointRate hist) =
      format_duration ((v1now : ℚ) / twoPointRate hist * 3600) ∧
    twoPointRate [⟨t0, 100⟩, ⟨t0 + 3600, 90⟩] = 10 ∧
    etaText 90 (twoPointRate [⟨t0, 100⟩, ⟨t0 + 3600, 90⟩]) = "9h 0m" := by
  have hpos := twoPointRate_pos_of hist h2 hw ht
  have hl : ([⟨t0, 100⟩, ⟨t0 + 3600, 90⟩] : List HistEntry).getLastD ⟨0, 0⟩ =
      ⟨t0 + 3600, 90⟩ := by
    simp [List.getLastD]
  have hh : ([⟨t0, 100⟩, ⟨t0 + 3600, 90⟩] : List HistEntry).headD ⟨0, 0⟩ =
      ⟨t0, 100⟩ := rfl
  have hconc : twoPointRate [⟨t0, 100⟩, ⟨t0 + 3600, 90⟩] = 10 := by
    rw [twoPointRate_eq_of _ (by simp) (by rw [hl, hh]; norm_num)
      (by rw [hl, hh]; show t0 < t0 + 3600; linarith), hl, hh]
    have hden : t0 + 3600 - t0 = 3600 := by ring
    rw [hden]
    norm_num
  refine ⟨twoPointRate_eq_of hist h2 hw ht, ?_, hconc, ?_⟩
  · simp only [etaText, if_pos hpos]
  · rw [hconc]
    have : ((90 : ℕ) : ℚ) / 10 * 3600 = 32400 := by norm_num
    simp only [etaText]
    rw [if_pos (by norm_num : (0 : ℚ) < 10), this]
    decide

/-- Claim C2, witness: the concrete history starting at `t0 = 0`. -/
theorem C2_throughput_and_eta_witness :
    twoPointRate [⟨(0 : ℚ), 100⟩, ⟨(0 : ℚ) + 3600, 90⟩] = 10 ∧
    etaText 90 (twoPointRate [⟨(0 : ℚ), 100⟩, ⟨(0 : ℚ) + 3600, 90⟩]) = "9h 0m" :=
  ⟨(C2_throughput_and_eta 0 [⟨0, 100⟩, ⟨3600, 90⟩] 90 (by simp) (by decide)
      (by decide)).2.2.1,
   (C2_throughput_and_eta 0 [⟨0, 100⟩, ⟨3600, 90⟩] 90 (by simp) (by decide)
      (by decide)).2.2.2⟩

/-- Claim C3: whenever fewer than two entries remain, or the
oldest/newest pair shows non-decreasing work or non-increasing time, the
rate is `0` and the ETA text is the sentinel `"n/a"` (the code's
rendering of the spec's "unknown"); moreover the rate is never negative,
on any history (and, being a rational, never infinite — the `dt > 0`
guard excludes division by zero). -/
theorem C3_degenerate_guard (hist : List HistEntry) (v1now : ℕ) :
    ((hist.length < 2 ∨
        (hist.headD ⟨0, 0⟩).v1 ≤ (hist.getLastD ⟨0, 0⟩).v1 ∨
        (hist.getLastD ⟨0, 0⟩).ts ≤ (hist.headD ⟨0, 0⟩).ts) →
      twoPointRate hist = 0 ∧ etaText v1now (twoPointRate hist) = "n/a") ∧
    0 ≤ twoPointRate hist := by
  refine ⟨fun h => ?_, twoPointRate_nonneg hist⟩
  have h0 := twoPointRate_eq_zero_of hist h
  refine ⟨h0, ?_⟩
  rw [h0]
  simp [etaText]

/-- Claim C3, witness: a two-entry history in which work increased
(100 -> 200) despite elapsed time, settled to rate `0` and ETA `"n/a"`. -/
theorem C3_degenerate_guard_witness :
    twoPointRate [⟨(0 : ℚ), 100⟩, ⟨(5 : ℚ), 200⟩] = 0 ∧
    etaText 90 (twoPointRate [⟨(0 : ℚ), 100⟩, ⟨(5 : ℚ), 200⟩]) = "n/a" :=
  (C3_degenerate_guard [⟨0, 100⟩, ⟨5, 200⟩] 90).1 (Or.inr (Or.inl (by decide)))

/-- Claim C5: `_apply_stats` first appends `(ts, v1_ready)` and then
evicts everything older than 6 hours (before the current wall-clock
`now`), so — provided the sample's timestamp does not lie in the future,
`stats.ts ≤ now` — every retained entry is within the 6-hour window and,
a fortiori, no entry older than 6 hours relative to the latest sample
survives to feed the oldest/newest rate computation. -/
theorem C5_append_then_evict (s : AppState) (stats : Stats) (now : ℚ)
    (nowStr : String) (hts : stats.ts ≤ now) :
    (applyStats s stats now nowStr).history =
      (s.history ++ [(⟨stats.ts, stats.v1_ready⟩ : HistEntry)]).filter
        (fun x => now - 6 * 3600 ≤ x.ts) ∧
    ∀ e ∈ (applyStats s stats now nowStr).history,
      now - 6 * 3600 ≤ e.ts ∧ stats.ts - 6 * 3600 ≤ e.ts := by
  refine ⟨rfl, fun e he => ?_⟩
  have hmem : e ∈ (s.history ++ [(⟨stats.ts, stats.v1_ready⟩ : HistEntry)]).filter
      (fun x => now - 6 * 3600 ≤ x.ts) := he
  have hin := List.of_mem_filter hmem
  have hwin : now - 6 * 3600 ≤ e.ts := by
    simpa using hin
  exact ⟨hwin, by linarith⟩

/-- An app state holding one sample taken 7 hours before time `0`. -/
def exStaleHistState : AppState :=
  { initState "mongodb://example" "cloud_storage" with
    history := [⟨-25200, 100⟩] }

/-- The snapshot of a probe finishing 1 hour before time `0`. -/
def exFreshStats : Stats :=
  { ts := -3600
    v1_ready := 90
    v2_ready := 10
    queued := 1
    processing := 2
    errors := 0
    progress := 10 }

/-- Claim C5, witness: applying the 1-hour-old sample at `now = 0` to a
history holding a 7-hour-old sample leaves exactly the in-window entry —
the stale one is evicted and cannot influence the rate. -/
theorem C5_append_then_evict_witness :
    ((-3600 : ℚ) ≤ 0) ∧
    (applyStats exStaleHistState exFreshStats 0 "t").history =
      [⟨-3600, 90⟩] := by
  refine ⟨by norm_num, ?_⟩
  rw [(C5_append_then_evict exStaleHistState exFreshStats 0 "t"
    (by norm_num [exFreshStats])).1]
  norm_num [exStaleHistState, exFreshStats, initState, List.filter_cons]

/-- Claim C6: a start attempt in the `Idle` state whose interval input
does not parse as an integer or parses non-positive is rejected with a
`ConfigError` carrying the untouched state — in particular the result is
never `started`, so no worker is spawned, the history is not cleared,
and `running` stays `false`. -/
theorem C6_bad_interval_rejected (s : AppState) (hrun : s.running = false)
    (hbad : pythonInt s.interval_var = none ∨
      ∃ n, pythonInt s.interval_var = some n ∧ n ≤ 0) :
    (∃ e, start true s = .configError e s) ∧
    ∀ s2 k, start true s ≠ .started s2 k := by
  simp only [start, hrun, not_true, if_neg, Bool.false_eq_true, if_false]
  by_cases hu : s.uri_var.trim = ""
  · rw [if_pos hu]
    exact ⟨⟨.missingUri, rfl⟩, by intro s2 k h; cases h⟩
  · rw [if_neg hu]
    by_cases hd : s.db_var.trim = ""
    · rw [if_pos hd]
      exact ⟨⟨.missingDb, rfl⟩, by intro s2 k h; cases h⟩
    · rw [if_neg hd]
      rcases hbad with hnone | ⟨n, hn, hle⟩
      · rw [hnone]
        exact ⟨⟨.badInterval, rfl⟩, by intro s2 k h; cases h⟩
      · rw [hn]
        simp only [if_pos hle]
        exact ⟨⟨.badInterval, rfl⟩, by intro s2 k h; cases h⟩

/-- An idle app state whose interval field reads `"0"`. -/
def exZeroIntervalState : AppState :=
  { initState "mongodb://example" "cloud_storage" with interval_var := "0" }

/-- Claim C6, witness: starting with interval input `"0"` is rejected
with a config error and never yields a started session. -/
theorem C6_bad_interval_rejected_witness :
    (∃ e, start true exZeroIntervalState = .configError e exZeroIntervalState) ∧
    ∀ s2 k, start true exZeroIntervalState ≠ .started s2 k :=
  C6_bad_interval_rejected exZeroIntervalState rfl
    (Or.inr ⟨0, by decide, by decide⟩)

/-- Claim C7: the worker loop emits exactly one queue event per poll, and
the event of poll `k` depends only on the outcome of probe `k`: a failed
probe enqueues its error message and in no way prevents or alters any
later poll — in the source both arms of the `try`/`except` fall through
to the same inter-poll wait, touching no session state. -/
theorem C7_probe_failure_isolated (probe : ℕ → Except String Stats)
    (n k : ℕ) (hk : k < n) :
    (workerEvents probe n).length = n ∧
    (workerEvents probe n)[k]? = some (eventOf (probe k)) := by
  have hlen : ∀ m, (workerEvents probe m).length = m := by
    intro m
    induction m with
    | zero => rfl
    | succ m ih => simp [workerEvents, ih]
  refine ⟨hlen n, ?_⟩
  induction n with
  | zero => omega
  | succ n ih =>
    rcases Nat.lt_succ_iff_lt_or_eq.mp hk with h | h
    · rw [workerEvents, List.getElem?_append_left (by rw [hlen n]; exact h)]
      exact ih h
    · subst h
      rw [workerEvents]
      have := List.getElem?_concat_length (workerEvents probe k)
        (eventOf (probe k))
      rwa [hlen k] at this

/-- A probe schedule whose first poll fails and later polls succeed. -/
def exProbe : ℕ → Except String Stats :=
  fun i => if i = 0 then .error "boom" else .ok exFreshStats

/-- Claim C7, witness: with the first probe failing, poll 0 enqueues the
error event and poll 1 still runs and enqueues its stats event. -/
theorem C7_probe_failure_isolated_witness :
    (workerEvents exProbe 2)[0]? = some (.error "boom") ∧
    (workerEvents exProbe 2)[1]? = some (.stats exFreshStats) :=
  ⟨(C7_probe_failure_isolated exProbe 2 0 (by norm_num)).2,
   (C7_probe_failure_isolated exProbe 2 1 (by norm_num)).2⟩

/-- Claim C8: draining an `Error` event rewrites only the status label,
to `"Error: <message>"` (so the failure is visibly indicated, never
swallowed); every other displayed value, the progress bar value, the
history, and the running flag are exactly what they were — last-known-good
values stay on screen. -/
theorem C8_error_event_touches_only_status (s : AppState) (msg : String)
    (now : ℚ) (nowStr : String) :
    (pumpEvent s (.error msg) now nowStr).status_var = "Error: " ++ msg ∧
    (pumpEvent s (.error msg) now nowStr).v1_var = s.v1_var ∧
    (pumpEvent s (.error msg) now nowStr).v2_var = s.v2_var ∧
    (pumpEvent s (.error msg) now nowStr).progress_var = s.progress_var ∧
    (pumpEvent s (.error msg) now nowStr).queued_var = s.queued_var ∧
    (pumpEvent s (.error msg) now nowStr).processing_var = s.processing_var ∧
    (pumpEvent s (.error msg) now nowStr).errors_var = s.errors_var ∧
    (pumpEvent s (.error msg) now nowStr).rate_var = s.rate_var ∧
    (pumpEvent s (.error msg) now nowStr).eta_var = s.eta_var ∧
    (pumpEvent s (.error msg) now nowStr).updated_var = s.updated_var ∧
    (pumpEvent s (.error msg) now nowStr).progress_value = s.progress_value ∧
    (pumpEvent s (.error msg) now nowStr).history = s.history ∧
    (pumpEvent s (.error msg) now nowStr).running = s.running :=
  ⟨rfl, rfl, rfl, rfl, rfl, rfl, rfl, rfl, rfl, rfl, rfl, rfl, rfl⟩

/-- Claim C9: cooperative cancellation of the worker loop. `stop()` on a
running session sets the stop event and returns the session to idle.
With the stop event set, no transition of the worker loop sleeps or
probes, and from any control position the loop terminates within two
instantaneous steps — a bound independent of `interval`, because the
inter-poll wait is `interval * 10` individual 0.1-second quanta, each
guarded by its own stop check (a sleep quantum only ever elapses when
the preceding check read not-stopped). Once `done`, the loop stays
`done` and never probes again. -/
theorem C9_bounded_stop_latency (interval : ℕ) (p : Phase) (s : AppState)
    (hrun : s.running = true) :
    (stop s).stopEventSet = true ∧ (stop s).running = false ∧
    ((workerStep interval true p).slept = false ∧
      (workerStep interval true p).probed = false) ∧
    stepN interval true 2 p = .done ∧
    (∀ stopSet : Bool, (workerStep interval stopSet p).slept = true →
      stopSet = false) ∧
    (∀ stopSet : Bool, workerStep interval stopSet Phase.done =
      ⟨Phase.done, false, false⟩) := by
  have h1 : (stop s).stopEventSet = true := by simp [stop, hrun]
  have h2 : (stop s).running = false := by simp [stop, hrun]
  refine ⟨h1, h2, ?_, ?_, ?_, ?_⟩
  · cases p with
    | loopCheck => exact ⟨rfl, rfl⟩
    | wait k => cases k with
      | zero => exact ⟨rfl, rfl⟩
      | succ k => exact ⟨rfl, rfl⟩
    | done => exact ⟨rfl, rfl⟩
  · cases p with
    | loopCheck => rfl
    | wait k => cases k with
      | zero => rfl
      | succ k => rfl
    | done => rfl
  · intro stopSet hslept
    cases stopSet with
    | false => rfl
    | true =>
      exfalso
      cases p with
      | loopCheck => simp [workerStep] at hslept
      | wait k => cases k with
        | zero => simp [workerStep] at hslept
        | succ k => simp [workerStep] at hslept
      | done => simp [workerStep] at hslept
  · intro stopSet
    cases stopSet with
    | false => rfl
    | true => rfl

/-- A running app state, as left by a successful `start()`. -/
def exRunningState : AppState :=
  { initState "mongodb://example" "cloud_storage" with
    running := true
    status_var := "Running" }

/-- Claim C9, witness: stopping the running example session sets the
stop event, and a worker three quanta into its wait reaches `done`
within two instantaneous steps. -/
theorem C9_bounded_stop_latency_witness :
    (stop exRunningState).stopEventSet = true ∧
    stepN 5 true 2 (Phase.wait 3) = Phase.done :=
  ⟨(C9_bounded_stop_latency 5 (Phase.wait 3) exRunningState rfl).1,
   (C9_bounded_stop_latency 5 (Phase.wait 3) exRunningState rfl).2.2.2.1⟩

/-- Claim C10: applying a drained `Sample` event never consults the
session state: `_apply_stats` runs identically whatever the `running`
flag holds (the flag is merely carried through), always rewrites every
displayed value from the snapshot, and always forces the status label to
`"Running"` — so a `Sample` still queued when `stop()` ran overwrites
the `"Stopped"` status with `"Running"` on an idle session. -/
theorem C10_sample_apply_unconditional (s : AppState) (stats : Stats)
    (now : ℚ) (nowStr : String) :
    pumpEvent s (.stats stats) now nowStr = applyStats s stats now nowStr ∧
    (applyStats s stats now nowStr).status_var = "Running" ∧
    (applyStats s stats now nowStr).running = s.running ∧
    (∀ b, applyStats { s with running := b } stats now nowStr =
      { applyStats s stats now nowStr with running := b }) ∧
    (applyStats s stats now nowStr).v1_var = format_int stats.v1_ready ∧
    (applyStats s stats now nowStr).v2_var = format_int stats.v2_ready ∧
    (applyStats s stats now nowStr).progress_var = fmt2 stats.progress ++ "%" ∧
    (applyStats s stats now nowStr).queued_var = format_int stats.queued ∧
    (applyStats s stats now nowStr).processing_var =
      format_int stats.processing ∧
    (applyStats s stats now nowStr).errors_var = format_int stats.errors ∧
    (applyStats s stats now nowStr).updated_var = nowStr ∧
    (applyStats s stats now nowStr).progress_value =
      max 0 (min 100 stats.progress) := by
  refine ⟨rfl, rfl, rfl, fun b => rfl, rfl, rfl, rfl, rfl, rfl, rfl, rfl, rfl⟩

end MigMonitor
